import Mathlib

/-!
Verification of the form-field and toast state logic of the
`custom-components` UI library (Input.tsx, Textarea.tsx, the Toast
provider).  Each definition is a shallow embedding of the corresponding
TypeScript: JS strings become `String`, optional props become `Option`,
JS truthiness of an optional string (undefined and "" are falsy) is the
`truthy` predicate, and handler side effects become explicit operation
lists applied to an explicit state.
-/

/-- JS truthiness of a `string | undefined` value: `undefined` and the
empty string are falsy, every other string is truthy. -/
def truthy : Option String → Bool
  | none => false
  | some s => s ≠ ""

-- ===========================================================================
-- Derived validation state (Input.tsx line 195, Textarea.tsx line 210)
-- ===========================================================================

/-- The validation states of Input/Textarea (`state` prop). -/
inductive VState
  | default
  | error
  | success
  | warning
deriving DecidableEq, Repr

/-- `const derivedState = error ? "error" : state;`
(Input.tsx line 195, Textarea.tsx line 210).  The `state` prop may be
absent (`undefined`), in which case the expression itself is `undefined`. -/
def derivedState (error : Option String) (state : Option VState) : Option VState :=
  if truthy error then some VState.error else state

/-- The tailwind-variants call sites (`inputVariants({ ..., state: derivedState })`)
resolve an absent state option through `defaultVariants: { state: "default" }`. -/
def resolveState (s : Option VState) : VState :=
  s.getD VState.default

/-- The effective validation state seen by every consumer: the source
`derivedState` expression followed by the variant table's default fallback. -/
def deriveState (explicitState : Option VState) (errorMessage : Option String) : VState :=
  resolveState (derivedState errorMessage explicitState)

-- ===========================================================================
-- Controlled / uncontrolled value bridge (Input.tsx lines 178-227,
-- Textarea.tsx lines 197-255)
-- ===========================================================================

/-- The props of the bridge that matter for value ownership. -/
structure FieldProps where
  value : Option String
  defaultValue : Option String
deriving DecidableEq, Repr

/-- The component's own state: `const [internalValue, setInternalValue] = useState(...)`. -/
structure FieldState where
  internalValue : String
deriving DecidableEq, Repr

/-- `useState(defaultValue ?? "")` (Input.tsx line 178, Textarea.tsx line 197). -/
def initState (p : FieldProps) : FieldState :=
  ⟨p.defaultValue.getD ""⟩

/-- `const isControlled = value !== undefined;` (Input.tsx line 189). -/
def isControlled (p : FieldProps) : Bool :=
  p.value.isSome

/-- `const currentValue = isControlled ? value : internalValue;` (Input.tsx line 190). -/
def currentValue (p : FieldProps) (s : FieldState) : String :=
  match p.value with
  | some v => v
  | none => s.internalValue

/-- `const characterCount = String(currentValue).length;` (Input.tsx line 192);
Textarea computes `charCount` the same way on its string current value. -/
def characterCount (p : FieldProps) (s : FieldState) : Nat :=
  (currentValue p s).length

/-- The observable operations a handler performs, in program order. -/
inductive FieldOp
  | setInternal (v : String)
  | invokeOnChange (raw : String)
  | focusField
  | invokeOnClear
deriving DecidableEq, Repr

/-- Effect of one operation on the component state (callbacks and DOM focus
do not touch `internalValue`). -/
def applyOp (s : FieldState) : FieldOp → FieldState
  | FieldOp.setInternal v => ⟨v⟩
  | _ => s

/-- Apply a handler's operations in order. -/
def applyOps (s : FieldState) (ops : List FieldOp) : FieldState :=
  ops.foldl applyOp s

/-- `handleChange` (Input.tsx lines 198-203, Textarea.tsx lines 249-255):
`if (!isControlled) { setInternalValue(e.target.value); } onChange?.(e);` -/
def handleChange (p : FieldProps) (raw : String) : List FieldOp :=
  (if isControlled p then [] else [FieldOp.setInternal raw]) ++ [FieldOp.invokeOnChange raw]

/-- `handleClear` (Input.tsx lines 218-227): when uncontrolled, reset the
internal value and, if the input element is mounted, clear and focus it;
always invoke `onClear?.()` last. -/
def handleClear (mounted : Bool) (p : FieldProps) : List FieldOp :=
  (if isControlled p then []
   else [FieldOp.setInternal ""] ++ (if mounted then [FieldOp.focusField] else []))
    ++ [FieldOp.invokeOnClear]

/-- Run a sequence of input events (each carrying its raw new text) through
`handleChange`. -/
def processEvents (p : FieldProps) : FieldState → List String → FieldState
  | s, [] => s
  | s, raw :: rest => processEvents p (applyOps s (handleChange p raw)) rest

-- ===========================================================================
-- Theorems: C2 (derived validation state)
-- ===========================================================================

/-- C2: the derived validation state is `error` whenever the error message is
non-empty; with an empty or absent error message it is the explicit state when
supplied and `default` when absent.  In particular
deriveState success "Required" = error, deriveState success "" = success, and
deriveState none none = default. -/
theorem deriveState_error_precedence :
    (∀ st : Option VState, ∀ err : String, err ≠ "" → deriveState st (some err) = VState.error) ∧
    (∀ st : VState, deriveState (some st) none = st) ∧
    (∀ st : VState, deriveState (some st) (some "") = st) ∧
    deriveState none none = VState.default ∧
    deriveState (some VState.success) (some "Required") = VState.error ∧
    deriveState (some VState.success) (some "") = VState.success := by
  refine ⟨?_, ?_, ?_, rfl, rfl, rfl⟩
  · intro st err h
    simp [deriveState, derivedState, resolveState, truthy, h]
  · intro st
    simp [deriveState, derivedState, resolveState, truthy]
  · intro st
    simp [deriveState, derivedState, resolveState, truthy]

/-- Witness for C2: the error-precedence branch at the concrete input
("success", "Required"). -/
theorem deriveState_error_precedence_witness :
    deriveState (some VState.success) (some "Required") = VState.error :=
  deriveState_error_precedence.1 (some VState.success) "Required" (by decide)

-- ===========================================================================
-- Theorems: C1 (controlled fidelity)
-- ===========================================================================

/-- C1: while the `value` prop is supplied, any sequence of input events
leaves the component state untouched, the effective value (and hence the
character count) is exactly the external value, and `handleChange` never
emits a write to the internal value. -/
theorem controlled_fidelity (p : FieldProps) (s : FieldState)
    (evs : List String) (v : String) (h : p.value = some v) :
    processEvents p s evs = s ∧
    currentValue p (processEvents p s evs) = v ∧
    characterCount p (processEvents p s evs) = v.length ∧
    (∀ raw w : String, FieldOp.setInternal w ∉ handleChange p raw) := by
  have hc : isControlled p = true := by simp [isControlled, h]
  have hops : ∀ raw : String, handleChange p raw = [FieldOp.invokeOnChange raw] := by
    intro raw
    simp [handleChange, hc]
  have hstate : processEvents p s evs = s := by
    induction evs with
    | nil => rfl
    | cons raw rest ih =>
      simp only [processEvents, hops, applyOps, List.foldl, applyOp]
      exact ih
  refine ⟨hstate, ?_, ?_, ?_⟩
  · rw [hstate]
    simp [currentValue, h]
  · rw [hstate]
    simp [characterCount, currentValue, h]
  · intro raw w
    rw [hops]
    simp

/-- Witness for C1: a controlled field with external value "abc" keeps state
and effective value "abc" across the event sequence ["x", "y"]. -/
theorem controlled_fidelity_witness :
    processEvents ⟨some "abc", none⟩ ⟨""⟩ ["x", "y"] = ⟨""⟩ ∧
    currentValue ⟨some "abc", none⟩ (processEvents ⟨some "abc", none⟩ ⟨""⟩ ["x", "y"]) = "abc" ∧
    characterCount ⟨some "abc", none⟩ (processEvents ⟨some "abc", none⟩ ⟨""⟩ ["x", "y"]) = 3 ∧
    (∀ raw w : String, FieldOp.setInternal w ∉ handleChange ⟨some "abc", none⟩ raw) :=
  controlled_fidelity ⟨some "abc", none⟩ ⟨""⟩ ["x", "y"] "abc" rfl

-- ===========================================================================
-- Theorems: C3 (uncontrolled echo)
-- ===========================================================================

/-- C3: an uncontrolled field seeds its internal value from `defaultValue`
(empty string if absent); handling an input event with raw text `raw` first
writes `raw` to the internal value and then invokes `onChange`, so the
effective value afterwards is `raw`; and `onChange` is invoked (as the last
operation) for every input event in either mode. -/
theorem uncontrolled_echo (p : FieldProps) (s : FieldState) (raw : String)
    (h : p.value = none) :
    (initState p).internalValue = p.defaultValue.getD "" ∧
    handleChange p raw = [FieldOp.setInternal raw, FieldOp.invokeOnChange raw] ∧
    currentValue p (applyOps s (handleChange p raw)) = raw ∧
    (∀ q : FieldProps, (handleChange q raw).getLast? = some (FieldOp.invokeOnChange raw)) := by
  have hc : isControlled p = false := by simp [isControlled, h]
  have hops : handleChange p raw = [FieldOp.setInternal raw, FieldOp.invokeOnChange raw] := by
    simp [handleChange, hc]
  refine ⟨rfl, hops, ?_, ?_⟩
  · rw [hops]
    simp [applyOps, applyOp, currentValue, h]
  · intro q
    by_cases hq : isControlled q = true
    · simp [handleChange, hq]
    · simp [handleChange, hq]

/-- Witness for C3: with no `value` and `defaultValue = "x"`, an input event
carrying "y" makes the effective value "y". -/
theorem uncontrolled_echo_witness :
    (initState ⟨none, some "x"⟩).internalValue = (some "x").getD "" ∧
    handleChange ⟨none, some "x"⟩ "y" =
      [FieldOp.setInternal "y", FieldOp.invokeOnChange "y"] ∧
    currentValue ⟨none, some "x"⟩
      (applyOps (initState ⟨none, some "x"⟩) (handleChange ⟨none, some "x"⟩ "y")) = "y" ∧
    (∀ q : FieldProps, (handleChange q "y").getLast? = some (FieldOp.invokeOnChange "y")) :=
  uncontrolled_echo ⟨none, some "x"⟩ (initState ⟨none, some "x"⟩) "y" rfl

-- ===========================================================================
-- Theorems: C8 (clear operation)
-- ===========================================================================

/-- C8: clearing an uncontrolled mounted field resets the internal value to
"" and focuses the field before invoking `onClear`; clearing a controlled
field performs only the `onClear` callback and leaves the state and the
rendered value unchanged. -/
theorem handleClear_spec (p : FieldProps) (s : FieldState) :
    (isControlled p = false →
      handleClear true p =
        [FieldOp.setInternal "", FieldOp.focusField, FieldOp.invokeOnClear] ∧
      (applyOps s (handleClear true p)).internalValue = "") ∧
    (isControlled p = true →
      handleClear true p = [FieldOp.invokeOnClear] ∧
      applyOps s (handleClear true p) = s ∧
      currentValue p (applyOps s (handleClear true p)) = currentValue p s) := by
  constructor
  · intro h
    constructor
    · simp [handleClear, h]
    · simp [handleClear, h, applyOps, applyOp]
  · intro h
    have hops : handleClear true p = [FieldOp.invokeOnClear] := by
      simp [handleClear, h]
    rw [hops]
    exact ⟨rfl, rfl, rfl⟩

/-- Witness for C8: both branches at concrete props (uncontrolled ⟨none, none⟩
with state "a"; controlled ⟨some "v", none⟩). -/
theorem handleClear_spec_witness :
    (handleClear true ⟨none, none⟩ =
        [FieldOp.setInternal "", FieldOp.focusField, FieldOp.invokeOnClear] ∧
      (applyOps ⟨"a"⟩ (handleClear true ⟨none, none⟩)).internalValue = "") ∧
    (handleClear true ⟨some "v", none⟩ = [FieldOp.invokeOnClear] ∧
      applyOps ⟨"a"⟩ (handleClear true ⟨some "v", none⟩) = ⟨"a"⟩ ∧
      currentValue ⟨some "v", none⟩ (applyOps ⟨"a"⟩ (handleClear true ⟨some "v", none⟩)) =
        currentValue ⟨some "v", none⟩ ⟨"a"⟩) :=
  ⟨(handleClear_spec ⟨none, none⟩ ⟨"a"⟩).1 rfl,
   (handleClear_spec ⟨some "v", none⟩ ⟨"a"⟩).2 rfl⟩

-- ===========================================================================
-- Textarea auto-resize (Textarea.tsx lines 216-241)
-- ===========================================================================

/-- `Number.parseInt(style, 10) || fallback`: the JS `||` substitutes the
fallback both when parsing fails (NaN) and when the parsed value is 0; a
parse failure is modelled as `none`. -/
def orFallback (parsed : Option Nat) (fallback : Nat) : Nat :=
  match parsed with
  | none => fallback
  | some 0 => fallback
  | some n => n

/-- The computed style metrics `resizeTextarea` reads; `none` stands for a
value `Number.parseInt` cannot parse (e.g. `line-height: normal`). -/
structure ComputedStyle where
  lineHeight : Option Nat
  paddingTop : Option Nat
  paddingBottom : Option Nat
  borderTopWidth : Option Nat
  borderBottomWidth : Option Nat
deriving DecidableEq, Repr

/-- The writes `resizeTextarea` performs: the applied pixel height and
whether `overflow-y` is set to `auto` (scrollbar) rather than `hidden`. -/
structure ResizeResult where
  height : Nat
  overflowYAuto : Bool
deriving DecidableEq, Repr

/-- `resizeTextarea` (Textarea.tsx lines 216-241).  Returns `none` on the
early exit (`!autoResize || !textareaRef.current`).  `scrollHeight` is the
element's natural content height as measured right after the
`height = "auto"` reset. -/
def resizeTextarea (autoResize : Bool) (mounted : Bool) (cs : ComputedStyle)
    (minRows maxRows : Nat) (scrollHeight : Nat) : Option ResizeResult :=
  if !autoResize || !mounted then none
  else
    let lineHeight := orFallback cs.lineHeight 20
    let paddingTop := orFallback cs.paddingTop 0
    let paddingBottom := orFallback cs.paddingBottom 0
    let borderTop := orFallback cs.borderTopWidth 0
    let borderBottom := orFallback cs.borderBottomWidth 0
    let minHeight := lineHeight * minRows + paddingTop + paddingBottom + borderTop + borderBottom
    let maxHeight := lineHeight * maxRows + paddingTop + paddingBottom + borderTop + borderBottom
    let newHeight := min (max scrollHeight minHeight) maxHeight
    some ⟨newHeight, decide (scrollHeight > maxHeight)⟩

/-- Sum of vertical paddings and vertical border widths, after the
padding/border fallbacks (0). -/
def verticalInsets (cs : ComputedStyle) : Nat :=
  orFallback cs.paddingTop 0 + orFallback cs.paddingBottom 0 +
    orFallback cs.borderTopWidth 0 + orFallback cs.borderBottomWidth 0

/-- C4: with auto-sizing enabled on a mounted element, the routine always
produces a (well-defined, never-NaN) result whose height is
clamp(naturalHeight, lineHeight*minRows + insets, lineHeight*maxRows + insets)
and whose scrollbar is enabled iff the natural height exceeds maxHeight;
with minRows=2, maxRows=8, lineHeight=20 and zero insets, natural height 400
yields 160 (with scrollbar) and natural height 10 yields 40 (without). -/
theorem resizeTextarea_clamp (cs : ComputedStyle) (minRows maxRows sh : Nat) :
    (∀ r : ResizeResult, resizeTextarea true true cs minRows maxRows sh = some r →
      r.height =
        min (max sh (orFallback cs.lineHeight 20 * minRows + verticalInsets cs))
          (orFallback cs.lineHeight 20 * maxRows + verticalInsets cs) ∧
      (r.overflowYAuto = true ↔
        orFallback cs.lineHeight 20 * maxRows + verticalInsets cs < sh)) ∧
    (resizeTextarea true true cs minRows maxRows sh).isSome = true ∧
    resizeTextarea true true ⟨some 20, some 0, some 0, some 0, some 0⟩ 2 8 400 =
      some ⟨160, true⟩ ∧
    resizeTextarea true true ⟨some 20, some 0, some 0, some 0, some 0⟩ 2 8 10 =
      some ⟨40, false⟩ := by
  refine ⟨?_, ?_, by decide, by decide⟩
  · intro r hr
    simp only [resizeTextarea, Bool.not_true, Bool.or_self, Bool.false_eq_true, if_false,
      Option.some.injEq] at hr
    subst hr
    constructor
    · simp only [verticalInsets]
      omega
    · simp only [verticalInsets, decide_eq_true_eq]
      omega
  · simp [resizeTextarea]

/-- Witness for C4: the clamp characterization applied at the concrete zero-
inset style with minRows=2, maxRows=8 and natural height 400. -/
theorem resizeTextarea_clamp_witness :
    (⟨160, true⟩ : ResizeResult).height =
      min (max 400 (orFallback (some 20) 20 * 2 +
            verticalInsets ⟨some 20, some 0, some 0, some 0, some 0⟩))
        (orFallback (some 20) 20 * 8 +
          verticalInsets ⟨some 20, some 0, some 0, some 0, some 0⟩) ∧
    ((⟨160, true⟩ : ResizeResult).overflowYAuto = true ↔
      orFallback (some 20) 20 * 8 +
          verticalInsets ⟨some 20, some 0, some 0, some 0, some 0⟩ < 400) :=
  (resizeTextarea_clamp ⟨some 20, some 0, some 0, some 0, some 0⟩ 2 8 400).1
    ⟨160, true⟩ (by decide)

-- ===========================================================================
-- Character counter color (Input.tsx lines 505-518, Textarea.tsx 394-408)
-- ===========================================================================

/-- A toast entry; `duration` is `none` for an unset duration prop. -/
structure Toast where
  id : String
  title : Option String := none
  description : Option String := none
  duration : Option Nat := none
deriving DecidableEq, Repr

/-- The context value the provider publishes; modelled by its data (the
dispatch functions are the top-level definitions below). -/
structure ToastContextValue where
  toasts : List Toast
deriving DecidableEq, Repr

/-- `useToast` (lines 94-100): `useContext` yields `undefined` outside a
provider subtree, in which case the hook throws
"useToast must be used within a ToastProvider"; otherwise it returns the
context value. -/
def useToast (ctx : Option ToastContextValue) : Except String ToastContextValue :=
  match ctx with
  | none => Except.error "useToast must be used within a ToastProvider"
  | some c => Except.ok c

/-- The state update of `addToast` (lines 128-131):
`setToasts((prev) => { const updated = [newToast, ...prev]; return updated.slice(0, maxToasts); })`. -/
def addToast (maxToasts : Nat) (newToast : Toast) (prev : List Toast) : List Toast :=
  (newToast :: prev).take maxToasts

/-- The construction of the stored toast (lines 121-126): a fresh id and
`duration: toast.duration ?? defaultDuration`. -/
def mkToast (defaultDuration : Nat) (id : String) (t : Toast) : Toast :=
  { t with id := id, duration := some (t.duration.getD defaultDuration) }

/-- `removeToast` (lines 138-140):
`setToasts((prev) => prev.filter((toast) => toast.id !== id))`. -/
def removeToast (id : String) (prev : List Toast) : List Toast :=
  prev.filter (fun t => t.id ≠ id)

/-- `removeAll` (lines 142-144): `setToasts([])`. -/
def removeAll (_prev : List Toast) : List Toast := []

/-- A sequence of `addToast` updates applied in order to a starting list. -/
def addAll (maxToasts : Nat) (ts : List Toast) (init : List Toast) : List Toast :=
  ts.foldl (fun acc t => addToast maxToasts t acc) init

theorem take_append_take {α : Type} (a b : List α) (k : Nat) :
    (a ++ b.take k).take k = (a ++ b).take k := by
  rw [List.take_append_eq_append_take, List.take_append_eq_append_take,
    List.take_take, Nat.min_eq_left (Nat.sub_le k a.length)]

theorem addAll_append_take (maxToasts : Nat) (ts : List Toast) :
    ∀ init : List Toast, init.length ≤ maxToasts →
      addAll maxToasts ts init = (ts.reverse ++ init).take maxToasts := by
  induction ts with
  | nil =>
    intro init h
    simp [addAll, List.take_of_length_le h]
  | cons t ts ih =>
    intro init h
    have hlen : ((t :: init).take maxToasts).length ≤ maxToasts := by
      simp [List.length_take]
    have step : addAll maxToasts (t :: ts) init =
        addAll maxToasts ts ((t :: init).take maxToasts) := rfl
    rw [step, ih ((t :: init).take maxToasts) hlen, take_append_take]
    simp

/-- C6: every `addToast` update prepends the new toast and truncates to the
first `maxToasts` elements in one functional update; starting from the empty
list, any sequence of adds leaves exactly the most recent `maxToasts` toasts,
most recent first (the reversal of the add order, truncated), so the list
never holds more than `maxToasts`; adding 6 toasts with maxToasts = 5 leaves
exactly the 5 most recently added, most recent first. -/
theorem toast_cap (k : Nat) (ts : List Toast) :
    (∀ (t : Toast) (prev : List Toast), addToast k t prev = (t :: prev).take k) ∧
    addAll k ts [] = ts.reverse.take k ∧
    (addAll k ts []).length ≤ k ∧
    (∀ t1 t2 t3 t4 t5 t6 : Toast,
      addAll 5 [t1, t2, t3, t4, t5, t6] [] = [t6, t5, t4, t3, t2]) := by
  have hmain : addAll k ts [] = ts.reverse.take k := by
    have := addAll_append_take k ts [] (by simp)
    simpa using this
  refine ⟨fun _ _ => rfl, hmain, ?_, fun t1 t2 t3 t4 t5 t6 => rfl⟩
  rw [hmain]
  simp [List.length_take]

/-- C9: calling the toast accessor with no provider context present yields the
explicit error "useToast must be used within a ToastProvider"; with a provider
context present it returns that context value. -/
theorem useToast_spec :
    useToast none = Except.error "useToast must be used within a ToastProvider" ∧
    (∀ c : ToastContextValue, useToast (some c) = Except.ok c) :=
  ⟨rfl, fun _ => rfl⟩

/-- C10: `removeToast id` keeps exactly the toasts whose id differs from the
given id (so it removes exactly those with that id, duplicates included),
preserves the relative order of the survivors (the result is a sublist of the
input), leaves the list unchanged when no toast has that id; and `removeAll`
always yields the empty list. -/
theorem removeToast_spec (id : String) (l : List Toast) :
    (∀ t : Toast, t ∈ removeToast id l ↔ t ∈ l ∧ t.id ≠ id) ∧
    (∀ t : Toast, List.count t (removeToast id l) =
      if t.id = id then 0 else List.count t l) ∧
    (removeToast id l).Sublist l ∧
    ((∀ t ∈ l, t.id ≠ id) → removeToast id l = l) ∧
    removeAll l = [] := by
  refine ⟨?_, ?_, List.filter_sublist l, ?_, rfl⟩
  · intro t
    simp [removeToast]
  · intro t
    by_cases h : t.id = id
    · simp only [h, if_true]
      rw [List.count_eq_zero]
      intro hmem
      have := ((List.mem_filter).mp hmem).2
      simp [h] at this
    · simp only [h, if_false]
      rw [removeToast, List.count_filter]
      simp [h]
  · intro h
    rw [removeToast, List.filter_eq_self]
    intro t ht
    simpa using h t ht

/-- Witness for C10: the unchanged-list branch at a concrete two-toast list
with an id no toast carries. -/
theorem removeToast_spec_witness :
    removeToast "z" [⟨"a", none, none, none⟩, ⟨"b", none, none, none⟩] =
      [⟨"a", none, none, none⟩, ⟨"b", none, none, none⟩] :=
  (removeToast_spec "z" [⟨"a", none, none, none⟩, ⟨"b", none, none, none⟩]).2.2.2.1
    (by decide)

-- ===========================================================================
-- Error-shake effect (Input.tsx lines 183, 229-252; Textarea.tsx 202, 269-291)
-- ===========================================================================

/-- The two props the shake effect depends on (`dependencies: [error, animateOnError]`). -/
structure RenderProps where
  error : Option String
  animateOnError : Bool
deriving DecidableEq, Repr

/-- One run of the effect body (Input.tsx lines 231-250), with the wrapper
element mounted: with `animateOnError` false it returns early, leaving
`prevErrorRef` untouched; otherwise it shakes iff `error && !prevErrorRef.current`
and then stores the current error in `prevErrorRef`.  Returns
(shake played, new prevErrorRef). -/
def shakeEffect (prev : Option String) (p : RenderProps) : Bool × Option String :=
  if p.animateOnError = false then (false, prev)
  else (truthy p.error && !truthy prev, p.error)

/-- Renders after the mount: `useGSAP` re-runs its callback only on renders
whose dependency pair differs from the previous render's. -/
def runRenders : Option String → RenderProps → List RenderProps → List Bool
  | _, _, [] => []
  | prev, lastDeps, p :: rest =>
    if p = lastDeps then false :: runRenders prev lastDeps rest
    else (shakeEffect prev p).1 :: runRenders (shakeEffect prev p).2 p rest

/-- Whether the shake plays on each render of a mounted component:
`prevErrorRef` is initialized to the mount-time error
(`useRef<string | undefined>(error)`, Input.tsx line 183), and the effect
also runs once on mount. -/
def shakeTrace : List RenderProps → List Bool
  | [] => []
  | p0 :: rest =>
    (shakeEffect p0.error p0).1 :: runRenders (shakeEffect p0.error p0).2 p0 rest

/-- The claim's edge predicate from a given previous-render error value:
error truthy now and falsy on the previous render. -/
def edgesFrom : Option String → List RenderProps → List Bool
  | _, [] => []
  | prevErr, p :: rest => (truthy p.error && !truthy prevErr) :: edgesFrom p.error rest

/-- The claim's edge predicate over a whole render sequence: never on mount,
then true exactly where the error is truthy and the previous render's error
was falsy. -/
def errorEdges : List RenderProps → List Bool
  | [] => []
  | p0 :: rest => false :: edgesFrom p0.error rest

/-- Counterexample to C7 as stated: mount without error, then set the error
with animateOnError disabled (the effect returns early without recording the
error), then re-enable animateOnError while the same error persists.  The
shake plays on the third render although the previous render's error was
already truthy — and did not play on the second render although that one was
the no-error-to-error edge. -/
theorem shake_edge_counterexample :
    shakeTrace [⟨none, true⟩, ⟨some "E", false⟩, ⟨some "E", true⟩] =
      [false, false, true] ∧
    errorEdges [⟨none, true⟩, ⟨some "E", false⟩, ⟨some "E", true⟩] =
      [false, true, false] := by
  constructor <;> decide

theorem runRenders_edgesFrom (rest : List RenderProps) :
    ∀ e0 : Option String, (∀ p ∈ rest, p.animateOnError = true) →
      runRenders e0 ⟨e0, true⟩ rest = edgesFrom e0 rest := by
  induction rest with
  | nil =>
    intro e0 h
    rfl
  | cons p rest ih =>
    intro e0 h
    have hp : p.animateOnError = true := h p (List.mem_cons_self _ _)
    have hrest : ∀ q ∈ rest, q.animateOnError = true :=
      fun q hq => h q (List.mem_cons_of_mem _ hq)
    obtain ⟨e, a⟩ := p
    have ha : a = true := hp
    subst ha
    by_cases heq : e = e0
    · subst heq
      simp only [runRenders, if_pos rfl, edgesFrom, Bool.and_not_self]
      exact congrArg (List.cons false) (ih e hrest)
    · have hne : (⟨e, true⟩ : RenderProps) ≠ ⟨e0, true⟩ := by
        intro hcontra
        exact heq (congrArg RenderProps.error hcontra)
      simp only [runRenders, if_neg hne, shakeEffect, edgesFrom, Bool.true_eq_false,
        if_false]
      exact congrArg (List.cons (truthy e && !truthy e0)) (ih e hrest)

/-- C7 amended: provided `animateOnError` is true on every render, the shake
plays exactly on the renders where the error prop is truthy and the previous
render's error was falsy — never while an already-present error persists and
never on initial mount with a pre-existing error (the previous-error
reference is initialized to the mount-time error). -/
theorem shake_edge_triggered (renders : List RenderProps)
    (h : ∀ p ∈ renders, p.animateOnError = true) :
    shakeTrace renders = errorEdges renders := by
  cases renders with
  | nil => rfl
  | cons p0 rest =>
    have h0 : p0.animateOnError = true := h p0 (List.mem_cons_self _ _)
    have hrest : ∀ p ∈ rest, p.animateOnError = true :=
      fun p hp => h p (List.mem_cons_of_mem _ hp)
    obtain ⟨e0, a0⟩ := p0
    have ha : a0 = true := h0
    subst ha
    simp only [shakeTrace, errorEdges, shakeEffect, Bool.true_eq_false, if_false,
      Bool.and_not_self]
    exact congrArg (List.cons false) (runRenders_edgesFrom rest e0 hrest)

/-- Witness for the amended C7: with animateOnError true throughout, mounting
with a pre-existing error plays nothing, and the later none-to-error
transition plays exactly once. -/
theorem shake_edge_triggered_witness :
    shakeTrace [⟨some "E", true⟩, ⟨none, true⟩, ⟨some "F", true⟩] =
      errorEdges [⟨some "E", true⟩, ⟨none, true⟩, ⟨some "F", true⟩] :=
  shake_edge_triggered [⟨some "E", true⟩, ⟨none, true⟩, ⟨some "F", true⟩] (by decide)
